import Mathlib

/-
Verification of the real-time KPI and calendar computation core of the
shift-manager application (`src/services/kpiCalculator.js` and the calendar
grid builder of the schedule store).  JS numbers are modelled as exact
rationals (ℚ), dates as year/month/day triples with a rata-die day count,
and JS `null`-able inputs as `Option`.
-/

namespace ShiftManager

/-- Time of day (hours, minutes, seconds), as parsed from an "HH:MM[:SS]" string. -/
structure TimeOfDay where
  hh : Nat
  mm : Nat
  ss : Nat
deriving DecidableEq

/-- Seconds since midnight on the fixed reference date `2000-01-01`. -/
def TimeOfDay.toSec (t : TimeOfDay) : Nat := t.hh * 3600 + t.mm * 60 + t.ss

/-- A shift template `{ name, start_time, end_time }`; a missing/falsy time field is `none`. -/
structure Shift where
  name : String
  start_time : Option TimeOfDay
  end_time : Option TimeOfDay
deriving DecidableEq

/-- A calendar date `YYYY-MM-DD`. -/
structure CalendarDate where
  year : Nat
  month : Nat
  day : Nat
deriving DecidableEq

/-- One schedule entry: a dated shift occurrence. -/
structure ScheduleEntry where
  date : CalendarDate
  shift : Shift
deriving DecidableEq

/-- Employee record; `absences` is `none` when the JS field is null/undefined. -/
structure Employee where
  max_hours_per_week : ℚ
  absences : Option (List CalendarDate)

/-- Company policy record. -/
structure Company where
  sunday_is_workday : Bool

/-- `this.sundaysOff = !company.sunday_is_workday` from the `KPICalculator` constructor. -/
def sundaysOff (c : Company) : Bool := !c.sunday_is_workday

/-- Result of `calculateMonthlyBreakdown`. -/
structure MonthlyBreakdown where
  hours : List ℚ
  shifts : List Nat
deriving DecidableEq

/-- Result shape of `calculateEmployeeStatistics`. -/
structure MonthlyStatistics where
  total_hours : ℚ
  total_shifts : Nat
  average_hours_per_shift : ℚ
  utilization_percentage : ℚ
  weekly_workload : List ℚ
deriving DecidableEq

/-- Result shape of `calculateYearlyStatistics`. -/
structure YearlyStatistics where
  total_hours : ℚ
  total_shifts : Nat
  average_hours_per_shift : ℚ
  max_yearly_hours : ℚ
  yearly_utilization_percentage : ℚ
  monthly_breakdown : MonthlyBreakdown
deriving DecidableEq

/-- Helper `round(num, decimals) = Math.round(num * 10^decimals) / 10^decimals`;
JS `Math.round x` is `⌊x + 1/2⌋` (halves round toward positive infinity). -/
def round (num : ℚ) (decimals : Nat) : ℚ :=
  (⌊num * (10 : ℚ) ^ decimals + 1 / 2⌋ : ℚ) / (10 : ℚ) ^ decimals

/-- `calculateShiftHours`: 0 when a time field is missing; otherwise the end-minus-start
difference in hours on the fixed reference date, plus 24 when negative (overnight wrap). -/
def calculateShiftHours (shift : Shift) : ℚ :=
  match shift.start_time, shift.end_time with
  | some s, some e =>
      let hours : ℚ := ((e.toSec : ℚ) - (s.toSec : ℚ)) / 3600
      if hours < 0 then hours + 24 else hours
  | _, _ => 0

/-- `calculateTotalHours`: reduce over the entries, adding each entry's shift hours. -/
def calculateTotalHours (scheduleData : List ScheduleEntry) : ℚ :=
  scheduleData.foldl (fun total entry => total + calculateShiftHours entry.shift) 0

/-- `calculateUtilizationPercentage`: 0 when `expectedHours <= 0`, else the ratio × 100. -/
def calculateUtilizationPercentage (actualHours expectedHours : ℚ) : ℚ :=
  if expectedHours ≤ 0 then 0 else actualHours / expectedHours * 100

/-- `getAbsencesInMonth`: 0 when the absence list is null; otherwise the length of the
filter keeping absence dates whose year and month equal the target pair. -/
def getAbsencesInMonth (employee : Employee) (year month : Nat) : Nat :=
  match employee.absences with
  | none => 0
  | some l => (l.filter (fun d => d.year == year && d.month == month)).length

/-- `getAbsencesInYear`: 0 when the absence list is null; otherwise the length of the
filter keeping absence dates whose year equals the target year. -/
def getAbsencesInYear (employee : Employee) (year : Nat) : Nat :=
  match employee.absences with
  | none => 0
  | some l => (l.filter (fun d => d.year == year)).length

/-! ### Claim theorems: shift duration, utilization -/

/-- C2: `calculateShiftHours` returns 0 when either time is absent; otherwise end minus
start in hours, adding 24 when the difference is negative; in particular 22:00–06:00 and
08:00–16:00 both last exactly 8 hours and 08:00–08:00 lasts 0 hours. -/
theorem shiftHours_spec :
    (∀ sh : Shift, sh.start_time = none ∨ sh.end_time = none → calculateShiftHours sh = 0) ∧
    (∀ (n : String) (s e : TimeOfDay), (e.toSec : ℚ) < (s.toSec : ℚ) →
      calculateShiftHours ⟨n, some s, some e⟩ = ((e.toSec : ℚ) - (s.toSec : ℚ)) / 3600 + 24) ∧
    (∀ (n : String) (s e : TimeOfDay), (s.toSec : ℚ) ≤ (e.toSec : ℚ) →
      calculateShiftHours ⟨n, some s, some e⟩ = ((e.toSec : ℚ) - (s.toSec : ℚ)) / 3600) ∧
    calculateShiftHours ⟨"Night", some ⟨22, 0, 0⟩, some ⟨6, 0, 0⟩⟩ = 8 ∧
    calculateShiftHours ⟨"Day", some ⟨8, 0, 0⟩, some ⟨16, 0, 0⟩⟩ = 8 ∧
    calculateShiftHours ⟨"Zero", some ⟨8, 0, 0⟩, some ⟨8, 0, 0⟩⟩ = 0 := by
  refine ⟨?_, ?_, ?_, ?_, ?_, ?_⟩
  · rintro ⟨n, st, et⟩ (h | h) <;> simp only at h <;> subst h
    · cases et <;> rfl
    · cases st <;> rfl
  · intro n s e h
    have hneg : ((e.toSec : ℚ) - (s.toSec : ℚ)) / 3600 < 0 :=
      div_neg_of_neg_of_pos (by linarith) (by norm_num)
    simp only [calculateShiftHours, if_pos hneg]
  · intro n s e h
    have hnn : ¬ ((e.toSec : ℚ) - (s.toSec : ℚ)) / 3600 < 0 := by
      have : (0 : ℚ) ≤ ((e.toSec : ℚ) - (s.toSec : ℚ)) / 3600 :=
        div_nonneg (by linarith) (by norm_num)
      linarith
    simp only [calculateShiftHours, if_neg hnn]
  · norm_num [calculateShiftHours, TimeOfDay.toSec]
  · norm_num [calculateShiftHours, TimeOfDay.toSec]
  · norm_num [calculateShiftHours, TimeOfDay.toSec]

/-- Witness for C2 at a concrete input with the hypotheses discharged. -/
theorem shiftHours_spec_witness :
    calculateShiftHours ⟨"Broken", none, some ⟨8, 0, 0⟩⟩ = 0 :=
  shiftHours_spec.1 ⟨"Broken", none, some ⟨8, 0, 0⟩⟩ (Or.inl rfl)

/-- C8: `calculateUtilizationPercentage` is 0 when the expected hours are ≤ 0 and is the
exact ratio times 100 otherwise, so the division only runs with a positive denominator;
in particular `utilization(100, 0) = 0`. -/
theorem utilization_guard :
    (∀ a e : ℚ, e ≤ 0 → calculateUtilizationPercentage a e = 0) ∧
    (∀ a e : ℚ, 0 < e → calculateUtilizationPercentage a e = a / e * 100) ∧
    calculateUtilizationPercentage 100 0 = 0 := by
  refine ⟨?_, ?_, ?_⟩
  · intro a e h
    simp [calculateUtilizationPercentage, h]
  · intro a e h
    simp [calculateUtilizationPercentage, not_le.mpr h]
  · simp [calculateUtilizationPercentage]

/-- Witness for C8 at a concrete positive denominator. -/
theorem utilization_guard_witness :
    calculateUtilizationPercentage 100 2 = 100 / 2 * 100 :=
  utilization_guard.2.1 100 2 (by norm_num)

/-! ### Calendar arithmetic -/

/-- Gregorian leap-year test. -/
def isLeapYear (y : Nat) : Bool := (y % 4 == 0 && y % 100 != 0) || y % 400 == 0

/-- Number of days in a month, as JS `new Date(year, month, 0).getDate()` produces it. -/
def daysInMonth (y m : Nat) : Nat :=
  if m = 2 then (if isLeapYear y then 29 else 28)
  else if m = 4 ∨ m = 6 ∨ m = 9 ∨ m = 11 then 30
  else 31

/-- Total days in the months of year `y` strictly before month `m`. -/
def daysBeforeMonth (y m : Nat) : Nat :=
  ((List.range (m - 1)).map (fun i => daysInMonth y (i + 1))).sum

/-- Rata-die day number of a proleptic-Gregorian date (`0001-01-01 = 1`); this models the
JS `Date` timeline at day granularity (order- and day-difference-preserving). -/
def rataDie (d : CalendarDate) : ℤ :=
  365 * ((d.year : ℤ) - 1) + (((d.year - 1) / 4 : Nat) : ℤ) - (((d.year - 1) / 100 : Nat) : ℤ)
    + (((d.year - 1) / 400 : Nat) : ℤ) + (daysBeforeMonth d.year d.month : ℤ) + (d.day : ℤ)

/-- JS `getDay()`: 0 = Sunday … 6 = Saturday. -/
def jsDay (d : CalendarDate) : ℤ := rataDie d % 7

/-- date-fns `startOfWeek(·, weekStartsOn: 1)` on rata-die day numbers: the Monday of the
Monday-start week containing day `r`. -/
def mondayStart (r : ℤ) : ℤ := r - (r - 1) % 7

/-- Fixed German holiday table used by `isHoliday` (month, day pairs, no year). -/
def holidays : List (Nat × Nat) := [(1, 1), (5, 1), (10, 3), (12, 25), (12, 26)]

/-- `isHoliday`: the date's month+day pair occurs in the fixed holiday table. -/
def isHoliday (d : CalendarDate) : Bool :=
  holidays.any (fun h => h.1 == d.month && h.2 == d.day)

/-- Body of the `getWorkingDaysInMonth` loop: a day counts unless one of the three skip
branches fires (Sunday while Sundays are off, Saturday, holiday). -/
def isCountedWorkingDay (c : Company) (d : CalendarDate) : Bool :=
  if sundaysOff c && (jsDay d == 0) then false
  else if jsDay d == 6 then false
  else if isHoliday d then false
  else true

/-- `getWorkingDaysInMonth`: iterate the calendar days of the month, counting the days
the loop body accepts. -/
def getWorkingDaysInMonth (c : Company) (year month : Nat) : Nat :=
  ((List.range (daysInMonth year month)).filter
    (fun i => isCountedWorkingDay c ⟨year, month, i + 1⟩)).length

/-- Spec-side working-day classification (C3), following the spec wording: a date is a
working day unless it is a Saturday, a Sunday while `sundayIsWorkday` is false, or a
fixed-table holiday. -/
def isWorkingDaySpec (d : CalendarDate) (sundayIsWorkday : Bool) : Bool :=
  !(jsDay d == 6 || (jsDay d == 0 && !sundayIsWorkday) || isHoliday d)

/-- The loop body of `getWorkingDaysInMonth` agrees with the spec-side classification. -/
theorem isCountedWorkingDay_eq_spec (c : Company) (d : CalendarDate) :
    isCountedWorkingDay c d = isWorkingDaySpec d c.sunday_is_workday := by
  obtain ⟨b⟩ := c
  simp only [isCountedWorkingDay, isWorkingDaySpec, sundaysOff]
  cases b <;> cases h0 : (jsDay d == 0) <;> cases h6 : (jsDay d == 6) <;>
    cases hh : isHoliday d <;> simp [h0, h6, hh]

/-- C3: `getWorkingDaysInMonth` counts exactly the calendar dates of the month that are
working days (not a Saturday, not a Sunday with `sunday_is_workday` false, not in the
fixed holiday table); concretely 2025-12-25 is excluded under both flag settings and the
Saturday 2025-06-07 is excluded under both flag settings. -/
theorem workingDays_spec :
    (∀ (c : Company) (year month : Nat),
      getWorkingDaysInMonth c year month =
        ((List.range (daysInMonth year month)).filter
          (fun i => isWorkingDaySpec ⟨year, month, i + 1⟩ c.sunday_is_workday)).length) ∧
    (∀ b : Bool, isCountedWorkingDay ⟨b⟩ ⟨2025, 12, 25⟩ = false) ∧
    (∀ b : Bool, isCountedWorkingDay ⟨b⟩ ⟨2025, 6, 7⟩ = false) := by
  refine ⟨?_, ?_, ?_⟩
  · intro c year month
    unfold getWorkingDaysInMonth
    congr 1
    exact List.filter_congr (fun i _ => isCountedWorkingDay_eq_spec c ⟨year, month, i + 1⟩)
  · intro b; cases b <;> decide
  · intro b; cases b <;> decide

/-! ### Claim theorems: absence counting -/

/-- C5 counterexample: duplicating an absence date changes the returned count, and the
count differs from the number of distinct matching dates — the functions count list
occurrences, not distinct dates. -/
theorem absences_duplicate_changes_count :
    getAbsencesInMonth ⟨40, some [⟨2025, 3, 10⟩, ⟨2025, 3, 10⟩]⟩ 2025 3 = 2 ∧
    getAbsencesInMonth ⟨40, some [⟨2025, 3, 10⟩]⟩ 2025 3 = 1 ∧
    getAbsencesInYear ⟨40, some [⟨2025, 3, 10⟩, ⟨2025, 3, 10⟩]⟩ 2025 = 2 ∧
    getAbsencesInMonth ⟨40, some [⟨2025, 3, 10⟩, ⟨2025, 3, 10⟩]⟩ 2025 3 ≠
      (([⟨2025, 3, 10⟩, ⟨2025, 3, 10⟩] : List CalendarDate).dedup.filter
        (fun x => x.year == 2025 && x.month == 3)).length := by
  refine ⟨rfl, rfl, rfl, by decide⟩

/-- C5 amended: `getAbsencesInMonth` / `getAbsencesInYear` count the matching absence-list
entries with multiplicity — each occurrence whose year (and month, for the monthly
variant) matches the period adds one, occurrences outside the period add nothing, and a
null absence list yields zero. -/
theorem absences_count_occurrences :
    ∀ (w : ℚ) (l : List CalendarDate) (d : CalendarDate) (year month : Nat),
      getAbsencesInMonth ⟨w, some (d :: l)⟩ year month =
        (if d.year = year ∧ d.month = month then 1 else 0) +
          getAbsencesInMonth ⟨w, some l⟩ year month ∧
      getAbsencesInYear ⟨w, some (d :: l)⟩ year =
        (if d.year = year then 1 else 0) + getAbsencesInYear ⟨w, some l⟩ year ∧
      getAbsencesInMonth ⟨w, none⟩ year month = 0 ∧
      getAbsencesInYear ⟨w, none⟩ year = 0 := by
  intro w l d year month
  refine ⟨?_, ?_, rfl, rfl⟩
  · by_cases h1 : d.year = year <;> by_cases h2 : d.month = month <;>
      simp [getAbsencesInMonth, List.filter_cons, h1, h2] <;> omega
  · by_cases h1 : d.year = year <;>
      simp [getAbsencesInYear, List.filter_cons, h1] <;> omega

/-! ### Expected hours -/

/-- `calculateExpectedMonthlyHours`: available working days (working days minus monthly
absences) times `(shiftsPerWeek / 7) * 8` with `shiftsPerWeek = max_hours_per_week / 8`. -/
def calculateExpectedMonthlyHours (c : Company) (employee : Employee) (year month : Nat) : ℚ :=
  let weeklyHours := employee.max_hours_per_week
  let shiftsPerWeek := weeklyHours / 8
  let workingDays := getWorkingDaysInMonth c year month
  let absencesInMonth := getAbsencesInMonth employee year month
  let availableWorkingDays : ℚ := (workingDays : ℚ) - (absencesInMonth : ℚ)
  availableWorkingDays * (shiftsPerWeek / 7) * 8

/-- `calculateExpectedYearlyHours`: available working days (yearly working days minus
yearly absences) times `max_hours_per_week / 7`. -/
def calculateExpectedYearlyHours (c : Company) (employee : Employee) (year : Nat) : ℚ :=
  let weeklyHours := employee.max_hours_per_week
  let totalWorkingDays := ((List.range 12).map (fun i => getWorkingDaysInMonth c year (i + 1))).sum
  let totalAbsences := getAbsencesInYear employee year
  let availableWorkingDays : ℚ := (totalWorkingDays : ℚ) - (totalAbsences : ℚ)
  availableWorkingDays * (weeklyHours / 7)

/-! ### Summation helpers -/

/-- Pointwise sums distribute over a mapped list sum. -/
theorem sum_map_add {α M : Type _} [AddCommMonoid M] (l : List α) (f g : α → M) :
    (l.map (fun x => f x + g x)).sum = (l.map f).sum + (l.map g).sum := by
  induction l with
  | nil => simp
  | cons a t ih => simp only [List.map_cons, List.sum_cons, ih]; abel

/-- Pointwise differences distribute over a mapped list sum. -/
theorem sum_map_sub {α : Type _} (l : List α) (f g : α → ℚ) :
    (l.map (fun x => f x - g x)).sum = (l.map f).sum - (l.map g).sum := by
  induction l with
  | nil => simp
  | cons a t ih => simp only [List.map_cons, List.sum_cons, ih]; ring

/-- A constant right factor distributes over a mapped list sum. -/
theorem sum_map_mul {α : Type _} (l : List α) (f : α → ℚ) (r : ℚ) :
    (l.map (fun x => f x * r)).sum = (l.map f).sum * r := by
  induction l with
  | nil => simp
  | cons a t ih => simp only [List.map_cons, List.sum_cons, ih]; ring

/-- Summing the indicator of `month = i + 1` over `i < k` yields `x` once when
`1 ≤ month ≤ k`. -/
theorem sum_map_single {M : Type _} [AddCommMonoid M] (k month : Nat) (x : M)
    (h1 : 1 ≤ month) (h2 : month ≤ k) :
    ((List.range k).map (fun i => if month = i + 1 then x else 0)).sum = x := by
  induction k with
  | zero => omega
  | succ n ih =>
    rw [List.range_succ, List.map_append, List.sum_append]
    by_cases h : month = n + 1
    · have hz : ((List.range n).map (fun i => if month = i + 1 then x else 0)).sum = 0 := by
        apply List.sum_eq_zero
        intro y hy
        rcases List.mem_map.mp hy with ⟨i, hi, rfl⟩
        have hin : i < n := List.mem_range.mp hi
        rw [if_neg (by omega)]
      rw [hz]
      simp [h]
    · have h2n : month ≤ n := by omega
      simp [ih h2n, h]

/-- Per-month occurrence counts over a date list partition the per-year occurrence count,
as long as every date of the target year has a real month number 1–12. -/
theorem count_partition (year : Nat) (l : List CalendarDate)
    (hv : ∀ d ∈ l, d.year = year → 1 ≤ d.month ∧ d.month ≤ 12) :
    ((List.range 12).map
      (fun i => (l.filter (fun d => d.year == year && d.month == i + 1)).length)).sum =
      (l.filter (fun d => d.year == year)).length := by
  induction l with
  | nil => simp
  | cons d t ih =>
    have iht := ih (fun x hx => hv x (List.mem_cons_of_mem d hx))
    by_cases hy : d.year = year
    · obtain ⟨hm1, hm2⟩ := hv d (List.mem_cons_self d t) hy
      have hstep : ∀ i : Nat,
          ((d :: t).filter (fun x => x.year == year && x.month == i + 1)).length =
            (if d.month = i + 1 then 1 else 0) +
              (t.filter (fun x => x.year == year && x.month == i + 1)).length := by
        intro i
        by_cases hm : d.month = i + 1 <;> simp [List.filter_cons, hy, hm] <;> omega
      simp only [hstep]
      rw [sum_map_add, sum_map_single 12 d.month 1 hm1 hm2, iht]
      simp [List.filter_cons, hy]
      omega
    · have hstep : ∀ i : Nat,
          ((d :: t).filter (fun x => x.year == year && x.month == i + 1)).length =
            (t.filter (fun x => x.year == year && x.month == i + 1)).length := by
        intro i
        simp [List.filter_cons, hy]
      simp only [hstep]
      rw [iht]
      simp [List.filter_cons, hy]

/-- The twelve monthly absence counts sum to the yearly absence count for dates with real
month numbers. -/
theorem absences_partition (emp : Employee) (year : Nat)
    (hv : ∀ l, emp.absences = some l → ∀ d ∈ l, d.year = year → 1 ≤ d.month ∧ d.month ≤ 12) :
    ((List.range 12).map (fun i => getAbsencesInMonth emp year (i + 1))).sum =
      getAbsencesInYear emp year := by
  obtain ⟨w, oabs⟩ := emp
  cases oabs with
  | none => simp [getAbsencesInMonth, getAbsencesInYear]
  | some l =>
    simp only [getAbsencesInMonth, getAbsencesInYear]
    exact count_partition year l (hv l rfl)

/-- C10: the yearly expected-hours formula agrees with the sum of the twelve monthly
expected-hours values in exact arithmetic: `(W/8)/7·8 = W/7`, yearly working days are the
sum of monthly working days, and the yearly absence count is the sum of the monthly
absence counts, provided absence dates carry real month numbers 1–12. -/
theorem expectedYearly_eq_sum_monthly (c : Company) (emp : Employee) (year : Nat)
    (hv : ∀ l, emp.absences = some l → ∀ d ∈ l, d.year = year → 1 ≤ d.month ∧ d.month ≤ 12) :
    calculateExpectedYearlyHours c emp year =
      ((List.range 12).map (fun i => calculateExpectedMonthlyHours c emp year (i + 1))).sum := by
  simp only [calculateExpectedYearlyHours, calculateExpectedMonthlyHours]
  have hterm : ∀ i : Nat,
      ((getWorkingDaysInMonth c year (i + 1) : ℚ) - (getAbsencesInMonth emp year (i + 1) : ℚ)) *
          (emp.max_hours_per_week / 8 / 7) * 8 =
        ((getWorkingDaysInMonth c year (i + 1) : ℚ) - (getAbsencesInMonth emp year (i + 1) : ℚ)) *
          (emp.max_hours_per_week / 7) := by
    intro i; ring
  simp only [hterm]
  rw [sum_map_mul (List.range 12)
    (fun i => (getWorkingDaysInMonth c year (i + 1) : ℚ) - (getAbsencesInMonth emp year (i + 1) : ℚ))
    (emp.max_hours_per_week / 7)]
  rw [sum_map_sub (List.range 12)
    (fun i => (getWorkingDaysInMonth c year (i + 1) : ℚ))
    (fun i => (getAbsencesInMonth emp year (i + 1) : ℚ))]
  have hwd : ((List.range 12).map (fun i => (getWorkingDaysInMonth c year (i + 1) : ℚ))).sum =
      ((((List.range 12).map (fun i => getWorkingDaysInMonth c year (i + 1))).sum : Nat) : ℚ) := by
    rw [Nat.cast_list_sum, List.map_map]
    rfl
  have habs1 : ((List.range 12).map (fun i => (getAbsencesInMonth emp year (i + 1) : ℚ))).sum =
      ((((List.range 12).map (fun i => getAbsencesInMonth emp year (i + 1))).sum : Nat) : ℚ) := by
    rw [Nat.cast_list_sum, List.map_map]
    rfl
  have habs2 : ((((List.range 12).map (fun i => getAbsencesInMonth emp year (i + 1))).sum : Nat) : ℚ) =
      ((getAbsencesInYear emp year : Nat) : ℚ) :=
    congrArg (fun n : Nat => (n : ℚ)) (absences_partition emp year hv)
  rw [hwd, habs1.trans habs2]

/-- Witness for C10 at a concrete company, employee and year. -/
theorem expectedYearly_eq_sum_monthly_witness :
    calculateExpectedYearlyHours ⟨true⟩ ⟨40, some [⟨2025, 3, 10⟩]⟩ 2025 =
      ((List.range 12).map
        (fun i => calculateExpectedMonthlyHours ⟨true⟩ ⟨40, some [⟨2025, 3, 10⟩]⟩ 2025 (i + 1))).sum :=
  expectedYearly_eq_sum_monthly ⟨true⟩ ⟨40, some [⟨2025, 3, 10⟩]⟩ 2025 (by
    intro l hl
    cases hl
    intro d hd hyd
    simp only [List.mem_singleton] at hd
    subst hd
    exact ⟨by norm_num, by norm_num⟩)

/-! ### Weekly workload -/

/-- Loop body of `calculateWeeklyWorkload` for the Monday-start week
`[weekStart, weekStart + 6]`: filter the entries into the week, sum their shift hours,
round to 3 decimals. -/
def weekBucket (entries : List ScheduleEntry) (weekStart : ℤ) : ℚ :=
  let weekEntries := entries.filter (fun e =>
    weekStart ≤ rataDie e.date && rataDie e.date ≤ weekStart + 6)
  round (weekEntries.foldl (fun total e => total + calculateShiftHours e.shift) 0) 3

/-- The `while (currentWeek <= lastDay)` loop of `calculateWeeklyWorkload`, stepping the
week start by 7 days per iteration. -/
def weeklyLoop (entries : List ScheduleEntry) (lastDay currentWeek : ℤ) : List ℚ :=
  if h : currentWeek ≤ lastDay then
    weekBucket entries currentWeek :: weeklyLoop entries lastDay (currentWeek + 7)
  else []
termination_by (lastDay + 1 - currentWeek).toNat
decreasing_by omega

/-- `calculateWeeklyWorkload`: run the week loop from the Monday of the week containing
the first day of the month, while the week start is at most the last day of the month. -/
def calculateWeeklyWorkload (entries : List ScheduleEntry) (year month : Nat) : List ℚ :=
  let firstDay := rataDie ⟨year, month, 1⟩
  let lastDay := rataDie ⟨year, month, daysInMonth year month⟩
  weeklyLoop entries lastDay (mondayStart firstDay)

/-- Spec-side weekly bucketing (C1): one bucket per Monday-aligned week from the week
containing the first day of the month through the week containing the last day, in
chronological order, each bucket the rounded hour sum of the entries inside that week. -/
def weeklyWorkloadSpec (entries : List ScheduleEntry) (year month : Nat) : List ℚ :=
  let a := mondayStart (rataDie ⟨year, month, 1⟩)
  let b := mondayStart (rataDie ⟨year, month, daysInMonth year month⟩)
  (List.range ((b - a).toNat / 7 + 1)).map (fun (i : Nat) => weekBucket entries (a + 7 * (i : ℤ)))

/-- Every month length is positive. -/
theorem daysInMonth_pos (y m : Nat) : 1 ≤ daysInMonth y m := by
  unfold daysInMonth
  split
  · split <;> norm_num
  · split <;> norm_num

/-- Unrolling of the week loop into a map over the week indices. -/
theorem weeklyLoop_eq (entries : List ScheduleEntry) (lastDay : ℤ) :
    ∀ (n : Nat) (w : ℤ), (lastDay + 1 - w).toNat ≤ n → w ≤ lastDay →
      weeklyLoop entries lastDay w =
        (List.range ((lastDay - w).toNat / 7 + 1)).map
          (fun (i : Nat) => weekBucket entries (w + 7 * (i : ℤ))) := by
  intro n
  induction n with
  | zero => intro w hn hw; omega
  | succ m ih =>
    intro w hn hw
    rw [weeklyLoop, dif_pos hw]
    by_cases h7 : w + 7 ≤ lastDay
    · rw [ih (w + 7) (by omega) h7]
      have hcnt : (lastDay - w).toNat / 7 + 1 = ((lastDay - (w + 7)).toNat / 7 + 1) + 1 := by
        omega
      rw [hcnt, List.range_succ_eq_map ((lastDay - (w + 7)).toNat / 7 + 1),
        List.map_cons, List.map_map]
      congr 1
      · norm_num
      · apply List.map_congr_left
        intro i hi
        simp only [Function.comp_apply]
        congr 1
        push_cast
        ring
    · rw [weeklyLoop, dif_neg (by omega)]
      have hcnt : (lastDay - w).toNat / 7 + 1 = 1 := by omega
      rw [hcnt]
      simp [List.range_succ]

/-- The last day of a month sits `daysInMonth - 1` days after its first day. -/
theorem rataDie_last (year month : Nat) :
    rataDie ⟨year, month, daysInMonth year month⟩ =
      rataDie ⟨year, month, 1⟩ + (daysInMonth year month : ℤ) - 1 := by
  simp only [rataDie]
  ring

/-- The week loop of `calculateWeeklyWorkload` computes exactly the spec-side bucketing. -/
theorem calculateWeeklyWorkload_eq (entries : List ScheduleEntry) (year month : Nat) :
    calculateWeeklyWorkload entries year month = weeklyWorkloadSpec entries year month := by
  simp only [calculateWeeklyWorkload, weeklyWorkloadSpec]
  have hdim : 1 ≤ daysInMonth year month := daysInMonth_pos year month
  have hlast := rataDie_last year month
  have ha : mondayStart (rataDie ⟨year, month, 1⟩) ≤ rataDie ⟨year, month, daysInMonth year month⟩ := by
    simp only [mondayStart]
    omega
  rw [weeklyLoop_eq entries (rataDie ⟨year, month, daysInMonth year month⟩)
    ((rataDie ⟨year, month, daysInMonth year month⟩ + 1 -
      mondayStart (rataDie ⟨year, month, 1⟩)).toNat)
    (mondayStart (rataDie ⟨year, month, 1⟩)) (le_refl _) ha]
  have hcnt : (rataDie ⟨year, month, daysInMonth year month⟩ -
        mondayStart (rataDie ⟨year, month, 1⟩)).toNat / 7 + 1 =
      (mondayStart (rataDie ⟨year, month, daysInMonth year month⟩) -
        mondayStart (rataDie ⟨year, month, 1⟩)).toNat / 7 + 1 := by
    simp only [mondayStart]
    omega
  rw [hcnt]

/-- C1: `calculateWeeklyWorkload` is exactly the spec's bucketing — the Monday-aligned
weeks from the week containing the 1st of the month through the week containing its last
day, in chronological order, each bucket the 3-decimal-rounded sum of the shift hours of
the entries with dates inside `[weekStart, weekEnd]` (entries spilling into adjacent
months included); for February 2025 the bucket list has exactly 5 elements. -/
theorem weeklyWorkload_spec (entries : List ScheduleEntry) (year month : Nat)
    (hne : entries ≠ []) (hm1 : 1 ≤ month) (hm2 : month ≤ 12) :
    calculateWeeklyWorkload entries year month = weeklyWorkloadSpec entries year month ∧
    (calculateWeeklyWorkload entries 2025 2).length = 5 := by
  refine ⟨calculateWeeklyWorkload_eq entries year month, ?_⟩
  rw [calculateWeeklyWorkload_eq]
  simp only [weeklyWorkloadSpec]
  rw [List.length_map, List.length_range]
  decide

/-- Witness for C1 at a concrete schedule entry list and month. -/
theorem weeklyWorkload_spec_witness :
    calculateWeeklyWorkload [⟨⟨2025, 2, 5⟩, ⟨"Day", some ⟨8, 0, 0⟩, some ⟨16, 0, 0⟩⟩⟩] 2025 2 =
      weeklyWorkloadSpec [⟨⟨2025, 2, 5⟩, ⟨"Day", some ⟨8, 0, 0⟩, some ⟨16, 0, 0⟩⟩⟩] 2025 2 :=
  (weeklyWorkload_spec [⟨⟨2025, 2, 5⟩, ⟨"Day", some ⟨8, 0, 0⟩, some ⟨16, 0, 0⟩⟩⟩] 2025 2
    (List.cons_ne_nil _ _) (by norm_num) (by norm_num)).1

/-! ### Monthly breakdown and statistics wrappers -/

/-- One step of the `forEach` accumulation in `calculateMonthlyBreakdown`: an entry of the
target year adds its shift hours and one shift at index `month - 1`. -/
def breakdownStep (year : Nat) (acc : List ℚ × List Nat) (e : ScheduleEntry) :
    List ℚ × List Nat :=
  if e.date.year == year then
    (acc.1.set (e.date.month - 1) (acc.1.getD (e.date.month - 1) 0 + calculateShiftHours e.shift),
     acc.2.set (e.date.month - 1) (acc.2.getD (e.date.month - 1) 0 + 1))
  else acc

/-- `calculateMonthlyBreakdown`: fold the entries into two 12-slot accumulators, then
round the hour slots to 3 decimals. -/
def calculateMonthlyBreakdown (entries : List ScheduleEntry) (year : Nat) : MonthlyBreakdown :=
  let res := entries.foldl (breakdownStep year) (List.replicate 12 0, List.replicate 12 0)
  { hours := res.1.map (fun h => round h 3), shifts := res.2 }

/-- Unrounded hour total of the entries of month `i + 1` of the target year. -/
def monthHours (entries : List ScheduleEntry) (year : Nat) (i : Nat) : ℚ :=
  ((entries.filter (fun e => e.date.year == year && e.date.month == i + 1)).map
    (fun e => calculateShiftHours e.shift)).sum

/-- `getEmptyStatistics`. -/
def getEmptyStatistics : MonthlyStatistics :=
  { total_hours := 0, total_shifts := 0, average_hours_per_shift := 0,
    utilization_percentage := 0, weekly_workload := [] }

/-- `getEmptyYearlyStatistics`. -/
def getEmptyYearlyStatistics : YearlyStatistics :=
  { total_hours := 0, total_shifts := 0, average_hours_per_shift := 0,
    max_yearly_hours := 0, yearly_utilization_percentage := 0,
    monthly_breakdown := { hours := List.replicate 12 0, shifts := List.replicate 12 0 } }

/-- `calculateEmployeeStatistics`: empty-input guard, then totals, average, expected
monthly hours, utilization and weekly workload. -/
def calculateEmployeeStatistics (c : Company) (employee : Employee)
    (scheduleData : Option (List ScheduleEntry)) (year month : Nat) : MonthlyStatistics :=
  match scheduleData with
  | none => getEmptyStatistics
  | some entries =>
    if entries.length = 0 then getEmptyStatistics
    else
      let totalHours := calculateTotalHours entries
      let totalShifts := entries.length
      let averageHoursPerShift : ℚ := if 0 < totalShifts then totalHours / (totalShifts : ℚ) else 0
      let expectedMonthlyHours := calculateExpectedMonthlyHours c employee year month
      let utilizationPercentage := calculateUtilizationPercentage totalHours expectedMonthlyHours
      { total_hours := totalHours
        total_shifts := totalShifts
        average_hours_per_shift := averageHoursPerShift
        utilization_percentage := utilizationPercentage
        weekly_workload := calculateWeeklyWorkload entries year month }

/-- `calculateYearlyStatistics`: empty-input guard, then totals, average, expected yearly
hours, yearly utilization and the monthly breakdown. -/
def calculateYearlyStatistics (c : Company) (employee : Employee)
    (scheduleData : Option (List ScheduleEntry)) (year : Nat) : YearlyStatistics :=
  match scheduleData with
  | none => getEmptyYearlyStatistics
  | some entries =>
    if entries.length = 0 then getEmptyYearlyStatistics
    else
      let totalHours := calculateTotalHours entries
      let totalShifts := entries.length
      let averageHoursPerShift : ℚ := if 0 < totalShifts then totalHours / (totalShifts : ℚ) else 0
      let expectedYearlyHours := calculateExpectedYearlyHours c employee year
      let yearlyUtilizationPercentage := calculateUtilizationPercentage totalHours expectedYearlyHours
      { total_hours := totalHours
        total_shifts := totalShifts
        average_hours_per_shift := averageHoursPerShift
        max_yearly_hours := expectedYearlyHours
        yearly_utilization_percentage := yearlyUtilizationPercentage
        monthly_breakdown := calculateMonthlyBreakdown entries year }

/-! ### Breakdown lemmas -/

/-- Folding an additive reducer starts at the initial accumulator and adds the mapped sum. -/
theorem foldl_add_eq_sum {α : Type _} (f : α → ℚ) (l : List α) :
    ∀ init : ℚ, l.foldl (fun total x => total + f x) init = init + (l.map f).sum := by
  induction l with
  | nil => intro init; simp
  | cons a t ih =>
    intro init
    simp only [List.foldl_cons, List.map_cons, List.sum_cons, ih]
    ring

/-- `calculateTotalHours` equals the sum of the per-entry shift hours. -/
theorem calculateTotalHours_eq_sum (l : List ScheduleEntry) :
    calculateTotalHours l = (l.map (fun e => calculateShiftHours e.shift)).sum := by
  unfold calculateTotalHours
  rw [foldl_add_eq_sum]
  ring

/-- Elementwise description of `List.set` through `getD`. -/
theorem getD_set {α : Type _} (dflt : α) (l : List α) (i j : Nat) (x : α) (h : i < l.length) :
    (l.set i x).getD j dflt = if i = j then x else l.getD j dflt := by
  induction l generalizing i j with
  | nil => simp at h
  | cons a t ih =>
    cases i with
    | zero =>
      cases j with
      | zero => simp
      | succ m => simp
    | succ n =>
      cases j with
      | zero => simp
      | succ m =>
        simp only [List.set_cons_succ, List.getD_cons_succ]
        rw [ih n m (by simpa using h)]
        by_cases hnm : n = m
        · simp [hnm]
        · simp [hnm]

/-- One breakdown step preserves the accumulator shapes. -/
theorem breakdownStep_length (year : Nat) (acc : List ℚ × List Nat) (e : ScheduleEntry) :
    (breakdownStep year acc e).1.length = acc.1.length ∧
    (breakdownStep year acc e).2.length = acc.2.length := by
  unfold breakdownStep
  split <;> simp

/-- The breakdown fold preserves the hour-accumulator length. -/
theorem breakdown_foldl_length (year : Nat) (entries : List ScheduleEntry) :
    ∀ acc : List ℚ × List Nat,
      (entries.foldl (breakdownStep year) acc).1.length = acc.1.length := by
  induction entries with
  | nil => intro acc; rfl
  | cons e t ih =>
    intro acc
    rw [List.foldl_cons, ih (breakdownStep year acc e), (breakdownStep_length year acc e).1]

/-- Pointwise value of the hour accumulator after the breakdown fold: each slot gains the
corresponding month's hour total. -/
theorem breakdown_foldl_getD (year : Nat) (entries : List ScheduleEntry)
    (hv : ∀ e ∈ entries, e.date.year = year → 1 ≤ e.date.month ∧ e.date.month ≤ 12) :
    ∀ (acc : List ℚ × List Nat), acc.1.length = 12 → ∀ i, i < 12 →
      ((entries.foldl (breakdownStep year) acc).1).getD i 0 =
        acc.1.getD i 0 + monthHours entries year i := by
  induction entries with
  | nil =>
    intro acc hlen i hi
    simp [monthHours]
  | cons e t ih =>
    intro acc hlen i hi
    have hvt : ∀ x ∈ t, x.date.year = year → 1 ≤ x.date.month ∧ x.date.month ≤ 12 :=
      fun x hx => hv x (List.mem_cons_of_mem e hx)
    have hlen2 : (breakdownStep year acc e).1.length = 12 := by
      rw [(breakdownStep_length year acc e).1, hlen]
    rw [List.foldl_cons, ih hvt (breakdownStep year acc e) hlen2 i hi]
    by_cases hy : e.date.year = year
    · obtain ⟨hm1, hm2⟩ := hv e (List.mem_cons_self e t) hy
      have hmh : monthHours (e :: t) year i =
          (if e.date.month = i + 1 then calculateShiftHours e.shift else 0) +
            monthHours t year i := by
        by_cases hm : e.date.month = i + 1 <;> simp [monthHours, List.filter_cons, hy, hm]
      have hstep : (breakdownStep year acc e).1 =
          acc.1.set (e.date.month - 1)
            (acc.1.getD (e.date.month - 1) 0 + calculateShiftHours e.shift) := by
        unfold breakdownStep
        rw [if_pos (by simp [hy])]
      rw [hstep, getD_set 0 acc.1 (e.date.month - 1) i _ (by omega), hmh]
      by_cases hme : e.date.month - 1 = i
      · rw [if_pos hme, if_pos (by omega), hme]
        ring
      · rw [if_neg hme, if_neg (by omega)]
        ring
    · have hmh : monthHours (e :: t) year i = monthHours t year i := by
        simp [monthHours, List.filter_cons, hy]
      have hstep : (breakdownStep year acc e).1 = acc.1 := by
        unfold breakdownStep
        rw [if_neg (by simp [hy])]
      rw [hstep, hmh]

/-- The rounded hour slots of `calculateMonthlyBreakdown` are the rounded per-month hour
totals, in month order. -/
theorem breakdown_hours_eq (entries : List ScheduleEntry) (year : Nat)
    (hv : ∀ e ∈ entries, e.date.year = year → 1 ≤ e.date.month ∧ e.date.month ≤ 12) :
    (calculateMonthlyBreakdown entries year).hours =
      (List.range 12).map (fun i => round (monthHours entries year i) 3) := by
  simp only [calculateMonthlyBreakdown]
  have hlen : ((entries.foldl (breakdownStep year)
      (List.replicate 12 0, List.replicate 12 0)).1).length = 12 := by
    rw [breakdown_foldl_length]
    simp
  apply List.ext_getElem
  · simp only [List.length_map, List.length_range, hlen]
  · intro i h1 h2
    have hi12 : i < 12 := by
      rw [List.length_map, hlen] at h1
      exact h1
    rw [List.getElem_map, List.getElem_map, List.getElem_range]
    congr 1
    rw [← List.getD_eq_getElem _ 0 (by rw [hlen]; exact hi12)]
    rw [breakdown_foldl_getD year entries hv _ (by simp) i hi12]
    have hrep : (List.replicate 12 (0 : ℚ)).getD i 0 = 0 := by
      rw [List.getD_eq_getElem _ 0 (by simpa using hi12)]
      exact List.getElem_replicate _ _
    rw [hrep]
    ring

/-- The twelve per-month hour totals sum to the total hours when all entries lie in the
target year and carry real month numbers. -/
theorem monthHours_partition (year : Nat) (entries : List ScheduleEntry)
    (hv : ∀ e ∈ entries, e.date.year = year ∧ 1 ≤ e.date.month ∧ e.date.month ≤ 12) :
    ((List.range 12).map (fun i => monthHours entries year i)).sum =
      calculateTotalHours entries := by
  induction entries with
  | nil => simp [monthHours, calculateTotalHours]
  | cons e t ih =>
    obtain ⟨hy, hm1, hm2⟩ := hv e (List.mem_cons_self e t)
    have iht := ih (fun x hx => hv x (List.mem_cons_of_mem e hx))
    have hstep : ∀ i : Nat, monthHours (e :: t) year i =
        (if e.date.month = i + 1 then calculateShiftHours e.shift else 0) +
          monthHours t year i := by
      intro i
      by_cases hm : e.date.month = i + 1 <;> simp [monthHours, List.filter_cons, hy, hm]
    simp only [hstep]
    rw [sum_map_add, sum_map_single 12 e.date.month _ hm1 hm2, iht]
    rw [calculateTotalHours_eq_sum, calculateTotalHours_eq_sum]
    simp [List.map_cons]

/-- C7: null or empty entry lists yield the documented all-zero result shapes, for both
the monthly statistics and the yearly statistics (whose breakdown carries two 12-length
zero arrays), with no exceptional path. -/
theorem empty_statistics_default (c : Company) (emp : Employee) (year month : Nat) :
    calculateEmployeeStatistics c emp none year month = ⟨0, 0, 0, 0, []⟩ ∧
    calculateEmployeeStatistics c emp (some []) year month = ⟨0, 0, 0, 0, []⟩ ∧
    calculateYearlyStatistics c emp none year =
      ⟨0, 0, 0, 0, 0, ⟨List.replicate 12 0, List.replicate 12 0⟩⟩ ∧
    calculateYearlyStatistics c emp (some []) year =
      ⟨0, 0, 0, 0, 0, ⟨List.replicate 12 0, List.replicate 12 0⟩⟩ :=
  ⟨rfl, rfl, rfl, rfl⟩

/-- Rationals that are integer multiples of 1/1000 are fixed points of 3-decimal
rounding. -/
theorem round3_fix (q : ℚ) (n : ℤ) (h : q * 1000 = (n : ℚ)) : round q 3 = q := by
  unfold round
  have hq : q * (10 : ℚ) ^ 3 = (n : ℚ) := by
    rw [← h]
    norm_num
  have hfloor : ⌊q * (10 : ℚ) ^ 3 + 1 / 2⌋ = n := by
    rw [hq, Int.floor_eq_iff]
    constructor
    · linarith
    · linarith
  rw [hfloor, div_eq_iff (by norm_num : ((10 : ℚ) ^ 3) ≠ 0)]
  exact hq.symm

/-- Rounding 1/60 (a one-minute shift, in hours) to 3 decimals yields 17/1000. -/
theorem round3_one_sixtieth : round ((1 : ℚ) / 60) 3 = 17 / 1000 := by
  unfold round
  have hfloor : ⌊(1 : ℚ) / 60 * (10 : ℚ) ^ 3 + 1 / 2⌋ = 17 := by
    rw [Int.floor_eq_iff]
    constructor
    · norm_num
    · push_cast
      norm_num
  rw [hfloor]
  norm_num

/-- C4 counterexample: a single one-minute shift (08:00–08:01) in 2025 gives
`total_hours = 1/60` while the rounded January bucket is `17/1000`, so the sum of
`monthly_breakdown.hours` differs from `total_hours`. -/
theorem breakdown_sum_ne_total :
    ((calculateYearlyStatistics ⟨true⟩ ⟨40, none⟩
        (some [⟨⟨2025, 1, 15⟩, ⟨"Minute", some ⟨8, 0, 0⟩, some ⟨8, 1, 0⟩⟩⟩])
        2025).monthly_breakdown.hours).sum ≠
      (calculateYearlyStatistics ⟨true⟩ ⟨40, none⟩
        (some [⟨⟨2025, 1, 15⟩, ⟨"Minute", some ⟨8, 0, 0⟩, some ⟨8, 1, 0⟩⟩⟩])
        2025).total_hours := by
  have hdur : calculateShiftHours ⟨"Minute", some ⟨8, 0, 0⟩, some ⟨8, 1, 0⟩⟩ = 1 / 60 := by
    norm_num [calculateShiftHours, TimeOfDay.toSec]
  have hv : ∀ x ∈ [(⟨⟨2025, 1, 15⟩, ⟨"Minute", some ⟨8, 0, 0⟩, some ⟨8, 1, 0⟩⟩⟩ : ScheduleEntry)],
      x.date.year = 2025 → 1 ≤ x.date.month ∧ x.date.month ≤ 12 := by
    intro x hx _
    simp only [List.mem_singleton] at hx
    subst hx
    exact ⟨by norm_num, by norm_num⟩
  have hbd : (calculateYearlyStatistics ⟨true⟩ ⟨40, none⟩
      (some [⟨⟨2025, 1, 15⟩, ⟨"Minute", some ⟨8, 0, 0⟩, some ⟨8, 1, 0⟩⟩⟩]) 2025).monthly_breakdown =
      calculateMonthlyBreakdown [⟨⟨2025, 1, 15⟩, ⟨"Minute", some ⟨8, 0, 0⟩, some ⟨8, 1, 0⟩⟩⟩] 2025 :=
    rfl
  have hth : (calculateYearlyStatistics ⟨true⟩ ⟨40, none⟩
      (some [⟨⟨2025, 1, 15⟩, ⟨"Minute", some ⟨8, 0, 0⟩, some ⟨8, 1, 0⟩⟩⟩]) 2025).total_hours =
      calculateTotalHours [⟨⟨2025, 1, 15⟩, ⟨"Minute", some ⟨8, 0, 0⟩, some ⟨8, 1, 0⟩⟩⟩] :=
    rfl
  rw [hbd, hth, breakdown_hours_eq _ 2025 hv, calculateTotalHours_eq_sum]
  have hmh : ∀ i ∈ List.range 12,
      round (monthHours [⟨⟨2025, 1, 15⟩, ⟨"Minute", some ⟨8, 0, 0⟩, some ⟨8, 1, 0⟩⟩⟩] 2025 i) 3 =
        (if i = 0 then (17 : ℚ) / 1000 else 0) := by
    intro i _
    by_cases hi0 : i = 0
    · subst hi0
      have h1 : monthHours [⟨⟨2025, 1, 15⟩, ⟨"Minute", some ⟨8, 0, 0⟩, some ⟨8, 1, 0⟩⟩⟩] 2025 0 =
          1 / 60 := by
        simp [monthHours, List.filter_cons, hdur]
      rw [h1, round3_one_sixtieth]
      simp
    · have hne1 : ¬ ((1 : Nat) = i + 1) := by omega
      have h0 : monthHours [⟨⟨2025, 1, 15⟩, ⟨"Minute", some ⟨8, 0, 0⟩, some ⟨8, 1, 0⟩⟩⟩] 2025 i =
          0 := by
        simp [monthHours, List.filter_cons, hne1, hi0]
      rw [h0, round3_fix 0 0 (by norm_num), if_neg hi0]
  rw [List.map_congr_left hmh]
  rw [show List.range 12 = [0, 1, 2, 3, 4, 5, 6, 7, 8, 9, 10, 11] from rfl]
  norm_num [hdur]

/-- C4 amended: for a non-empty entry list lying entirely in the target year (with real
month numbers 1–12), the sum of `monthly_breakdown.hours` equals `total_hours` provided
each month's unrounded hour total is a fixed point of the 3-decimal rounding; the
rounding of the monthly buckets makes the unconditional equality fail. -/
theorem breakdown_sum_eq_total (c : Company) (emp : Employee) (year : Nat)
    (entries : List ScheduleEntry) (hne : entries ≠ [])
    (hv : ∀ e ∈ entries, e.date.year = year ∧ 1 ≤ e.date.month ∧ e.date.month ≤ 12)
    (hexact : ∀ i, i < 12 → round (monthHours entries year i) 3 = monthHours entries year i) :
    ((calculateYearlyStatistics c emp (some entries) year).monthly_breakdown.hours).sum =
      (calculateYearlyStatistics c emp (some entries) year).total_hours := by
  have hnz : ¬ entries.length = 0 := by
    simpa using hne
  simp only [calculateYearlyStatistics, if_neg hnz]
  rw [breakdown_hours_eq entries year (fun e he _ => (hv e he).2)]
  rw [List.map_congr_left (fun i hi => hexact i (List.mem_range.mp hi))]
  exact monthHours_partition year entries hv

/-- Witness for C4 (amended) at one whole-hour entry. -/
theorem breakdown_sum_eq_total_witness :
    ((calculateYearlyStatistics ⟨true⟩ ⟨40, none⟩
        (some [⟨⟨2025, 1, 15⟩, ⟨"Day", some ⟨8, 0, 0⟩, some ⟨16, 0, 0⟩⟩⟩])
        2025).monthly_breakdown.hours).sum =
      (calculateYearlyStatistics ⟨true⟩ ⟨40, none⟩
        (some [⟨⟨2025, 1, 15⟩, ⟨"Day", some ⟨8, 0, 0⟩, some ⟨16, 0, 0⟩⟩⟩])
        2025).total_hours := by
  have hdur : calculateShiftHours ⟨"Day", some ⟨8, 0, 0⟩, some ⟨16, 0, 0⟩⟩ = 8 := by
    norm_num [calculateShiftHours, TimeOfDay.toSec]
  refine breakdown_sum_eq_total ⟨true⟩ ⟨40, none⟩ 2025 _ (List.cons_ne_nil _ _) ?_ ?_
  · intro e he
    simp only [List.mem_singleton] at he
    subst he
    exact ⟨rfl, by norm_num, by norm_num⟩
  · intro i _
    by_cases hi0 : i = 0
    · subst hi0
      have h1 : monthHours [⟨⟨2025, 1, 15⟩, ⟨"Day", some ⟨8, 0, 0⟩, some ⟨16, 0, 0⟩⟩⟩] 2025 0 =
          8 := by
        simp [monthHours, List.filter_cons, hdur]
      rw [h1]
      exact round3_fix 8 8000 (by norm_num)
    · have hne1 : ¬ ((1 : Nat) = i + 1) := by omega
      have h0 : monthHours [⟨⟨2025, 1, 15⟩, ⟨"Day", some ⟨8, 0, 0⟩, some ⟨16, 0, 0⟩⟩⟩] 2025 i =
          0 := by
        simp [monthHours, List.filter_cons, hne1, hi0]
      rw [h0]
      exact round3_fix 0 0 (by norm_num)

/-! ### Calendar grid (schedule store) -/

/-- Per-date payload found in `schedule_data[dateStr]`. -/
structure DayData where
  shifts : List String
  is_holiday : Bool
  is_non_working : Bool
deriving DecidableEq

/-- The `{}` default used when a date is absent from `schedule_data`. -/
def emptyDayData : DayData := { shifts := [], is_holiday := false, is_non_working := false }

/-- One populated calendar day cell of the month grid. -/
structure CalendarDayCell where
  day : Nat
  date : CalendarDate
  shifts : List String
  is_today : Bool
  is_holiday : Bool
  is_sunday : Bool
  is_non_working : Bool
deriving DecidableEq

/-- date-fns `isSameMonth`: same year and same month. -/
def isSameMonth (a b : CalendarDate) : Bool := a.year == b.year && a.month == b.month

/-- `schedule_data?.[dateStr] || {}`: look the date up in the schedule payload, defaulting
to the empty payload. -/
def lookupDay (schedule : List (CalendarDate × DayData)) (d : CalendarDate) : DayData :=
  match schedule.find? (fun p => p.1 == d) with
  | some p => p.2
  | none => emptyDayData

/-- Successor date on the calendar (the day-stepping of `eachDayOfInterval`). -/
def nextDay (d : CalendarDate) : CalendarDate :=
  if d.day < daysInMonth d.year d.month then ⟨d.year, d.month, d.day + 1⟩
  else if d.month < 12 then ⟨d.year, d.month + 1, 1⟩
  else ⟨d.year + 1, 1, 1⟩

/-- Predecessor date on the calendar (stepping back to the calendar start). -/
def prevDay (d : CalendarDate) : CalendarDate :=
  if 1 < d.day then ⟨d.year, d.month, d.day - 1⟩
  else if 1 < d.month then ⟨d.year, d.month - 1, daysInMonth d.year (d.month - 1)⟩
  else ⟨d.year - 1, 12, 31⟩

/-- date-fns `eachDayOfInterval`: the `n` consecutive days starting at `start`. -/
def eachDay : CalendarDate → Nat → List CalendarDate
  | _, 0 => []
  | start, n + 1 => start :: eachDay (nextDay start) n

/-- The `for (i = 0; i < days.length; i += 7) slice(i, i + 7)` chunking loop. -/
def chunk7 {α : Type _} : List α → List (List α)
  | [] => []
  | x :: xs => ((x :: xs).take 7) :: chunk7 ((x :: xs).drop 7)
termination_by l => l.length
decreasing_by simp [List.length_drop]; omega

/-- Day list of the calendar span: from the Monday of the week containing the 1st of the
month through the Sunday of the week containing its last day. -/
def calendarDays (year month : Nat) : List CalendarDate :=
  let monthStart : CalendarDate := ⟨year, month, 1⟩
  let calendarStartRd := mondayStart (rataDie monthStart)
  let calendarEndRd := mondayStart (rataDie ⟨year, month, daysInMonth year month⟩) + 6
  eachDay (prevDay^[(rataDie monthStart - calendarStartRd).toNat] monthStart)
    (calendarEndRd - calendarStartRd + 1).toNat

/-- Per-day cell of `getCalendarWeeks`: `null` outside the target month, otherwise the
populated day object (`is_today` compares against the clock value `today` sampled by
date-fns `isToday` at invocation time). -/
def calendarCell (schedule : List (CalendarDate × DayData)) (year month : Nat)
    (today : CalendarDate) (day : CalendarDate) : Option CalendarDayCell :=
  if isSameMonth day ⟨year, month, 1⟩ then
    some { day := day.day
           date := day
           shifts := (lookupDay schedule day).shifts
           is_today := day == today
           is_holiday := (lookupDay schedule day).is_holiday
           is_sunday := jsDay day == 0
           is_non_working := (lookupDay schedule day).is_non_working }
  else none

/-- `getCalendarWeeks`: empty on a falsy year/month, otherwise the 7-day chunks of the
calendar span, each day mapped to its cell. -/
def getCalendarWeeks (schedule : List (CalendarDate × DayData)) (year month : Nat)
    (today : CalendarDate) : List (List (Option CalendarDayCell)) :=
  if year = 0 ∨ month = 0 then []
  else
    (chunk7 (calendarDays year month)).map
      (fun week => week.map (calendarCell schedule year month today))

/-- `eachDay` produces exactly `n` days. -/
theorem eachDay_length : ∀ (s : CalendarDate) (n : Nat), (eachDay s n).length = n := by
  intro s n
  induction n generalizing s with
  | zero => rfl
  | succ m ih => simp [eachDay, ih]

/-- Flattening the 7-chunks recovers the original list. -/
theorem chunk7_flatten {α : Type _} (l : List α) : (chunk7 l).flatten = l := by
  induction l using chunk7.induct with
  | case1 => simp [chunk7]
  | case2 x xs ih =>
    simp only [chunk7, List.flatten_cons, ih]
    exact List.take_append_drop 7 (x :: xs)

/-- When the list length is a multiple of 7, every 7-chunk has length exactly 7. -/
theorem chunk7_length {α : Type _} (l : List α) :
    7 ∣ l.length → ∀ w ∈ chunk7 l, w.length = 7 := by
  induction l using chunk7.induct with
  | case1 =>
    intro h w hw
    simp [chunk7] at hw
  | case2 x xs ih =>
    intro h w hw
    simp only [chunk7, List.mem_cons] at hw
    rcases hw with rfl | hw
    · rw [List.length_take]
      have h7 : 7 ≤ (x :: xs).length := by
        have h1 : 1 ≤ (x :: xs).length := by simp
        omega
      omega
    · refine ih ?_ w hw
      rw [List.length_drop]
      omega

/-- The calendar span covers a whole number of weeks. -/
theorem calendarDays_length_dvd (year month : Nat) :
    7 ∣ (calendarDays year month).length := by
  simp only [calendarDays, eachDay_length]
  have hlast := rataDie_last year month
  have hdim := daysInMonth_pos year month
  simp only [mondayStart]
  omega

/-- The grid flattens to the cell images of the calendar span, in day order. -/
theorem calendarWeeks_flatten (schedule : List (CalendarDate × DayData)) (year month : Nat)
    (today : CalendarDate) (hy : ¬ year = 0) (hm : ¬ month = 0) :
    (getCalendarWeeks schedule year month today).flatten =
      (calendarDays year month).map (calendarCell schedule year month today) := by
  simp only [getCalendarWeeks]
  rw [if_neg (by tauto)]
  rw [show ∀ ws : List (List CalendarDate),
        (ws.map (fun week => week.map (calendarCell schedule year month today))).flatten =
          ws.flatten.map (calendarCell schedule year month today) from fun ws => by
      simp]
  rw [chunk7_flatten]

/-- C6: for every year/month pair from 2000 to 2100 and every schedule payload, the
calendar grid has weeks of exactly 7 cells (hence a cell total divisible by 7), its cells
are the per-day cell images of the calendar span in order, and a day's cell is `null`
exactly when the day lies outside the target month (in-month days get populated cells). -/
theorem calendarWeeks_grid (schedule : List (CalendarDate × DayData)) (year month : Nat)
    (today : CalendarDate) (hy1 : 2000 ≤ year) (hy2 : year ≤ 2100)
    (hm1 : 1 ≤ month) (hm2 : month ≤ 12) :
    (∀ week ∈ getCalendarWeeks schedule year month today, week.length = 7) ∧
    7 ∣ ((getCalendarWeeks schedule year month today).map List.length).sum ∧
    (getCalendarWeeks schedule year month today).flatten =
      (calendarDays year month).map (calendarCell schedule year month today) ∧
    (∀ d : CalendarDate,
      calendarCell schedule year month today d = none ↔ ¬(d.year = year ∧ d.month = month)) := by
  have hy0 : ¬ year = 0 := by omega
  have hm0 : ¬ month = 0 := by omega
  have hflat := calendarWeeks_flatten schedule year month today hy0 hm0
  refine ⟨?_, ?_, hflat, ?_⟩
  · intro week hw
    simp only [getCalendarWeeks] at hw
    rw [if_neg (by tauto)] at hw
    rcases List.mem_map.mp hw with ⟨wk, hwk, rfl⟩
    rw [List.length_map]
    exact chunk7_length _ (calendarDays_length_dvd year month) wk hwk
  · have hlen : ((getCalendarWeeks schedule year month today).map List.length).sum =
        (getCalendarWeeks schedule year month today).flatten.length := by
      rw [List.length_flatten]
    rw [hlen, hflat, List.length_map]
    exact calendarDays_length_dvd year month
  · intro d
    simp only [calendarCell, isSameMonth]
    by_cases h : (d.year == year && d.month == month) = true
    · rw [if_pos (by simpa using h)]
      simp only [beq_iff_eq, Bool.and_eq_true] at h
      simp [h.1, h.2]
    · rw [if_neg (by simpa using h)]
      simp only [beq_iff_eq, Bool.and_eq_true] at h
      simpa using h

/-- Witness for C6: the cell-count divisibility at a concrete year, month and payload. -/
theorem calendarWeeks_grid_witness :
    7 ∣ ((getCalendarWeeks [] 2025 6 ⟨2025, 6, 15⟩).map List.length).sum :=
  (calendarWeeks_grid [] 2025 6 ⟨2025, 6, 15⟩ (by norm_num) (by norm_num)
    (by norm_num) (by norm_num)).2.1

/-- C9 counterexample: with identical store inputs (schedule payload, year, month), two
invocations observing different clock values produce different grids — the `is_today`
flag tracks the clock sampled inside the computation (date-fns `isToday`), so the grid is
not a function of the explicit store inputs alone. -/
theorem calendarWeeks_depends_on_clock :
    getCalendarWeeks [] 2025 6 ⟨2025, 6, 15⟩ ≠ getCalendarWeeks [] 2025 6 ⟨2025, 6, 16⟩ := by
  intro heq
  have hflat := congrArg List.flatten heq
  rw [calendarWeeks_flatten [] 2025 6 ⟨2025, 6, 15⟩ (by norm_num) (by norm_num),
    calendarWeeks_flatten [] 2025 6 ⟨2025, 6, 16⟩ (by norm_num) (by norm_num)] at hflat
  have hcell := List.map_eq_map_iff.mp hflat ⟨2025, 6, 15⟩ (by decide)
  exact absurd hcell (by decide)

/-- C9 amended: the grid is a deterministic function of the store inputs TOGETHER WITH
the sampled clock value: every populated cell's `is_today` equals the comparison of the
cell's date with the clock value `today` threaded into the computation (which the source
samples inside date-fns `isToday` rather than receiving from the caller), and with
`today` fixed the grid is the deterministic cell image of the calendar span. -/
theorem calendar_isToday_characterization (schedule : List (CalendarDate × DayData))
    (year month : Nat) (today : CalendarDate) (hy : ¬ year = 0) (hm : ¬ month = 0) :
    (getCalendarWeeks schedule year month today).flatten =
      (calendarDays year month).map (calendarCell schedule year month today) ∧
    (∀ (d : CalendarDate) (cell : CalendarDayCell),
      calendarCell schedule year month today d = some cell →
      cell.is_today = (cell.date == today)) := by
  refine ⟨calendarWeeks_flatten schedule year month today hy hm, ?_⟩
  intro d cell hcell
  simp only [calendarCell] at hcell
  by_cases h : isSameMonth d ⟨year, month, 1⟩ = true
  · rw [if_pos h] at hcell
    rw [Option.some.injEq] at hcell
    subst hcell
    rfl
  · rw [if_neg h] at hcell
    exact absurd hcell (by simp)

/-- Witness for C9 (amended) at a concrete populated cell. -/
theorem calendar_isToday_characterization_witness :
    (⟨15, ⟨2025, 6, 15⟩, [], true, false, true, false⟩ : CalendarDayCell).is_today =
      ((⟨15, ⟨2025, 6, 15⟩, [], true, false, true, false⟩ : CalendarDayCell).date ==
        (⟨2025, 6, 15⟩ : CalendarDate)) :=
  (calendar_isToday_characterization [] 2025 6 ⟨2025, 6, 15⟩ (by norm_num) (by norm_num)).2
    ⟨2025, 6, 15⟩ ⟨15, ⟨2025, 6, 15⟩, [], true, false, true, false⟩ (by decide)

end ShiftManager
